import Mathlib

/-!
Shallow embedding of the weather-dashboard pipeline
(`app.py`, `process_data.py`, `create_db.py`).

Modelling conventions:
* SQLite storage is a `Storage := Option (List Row)`: `none` means the
  database file `data.db` does not exist yet; `some rows` means the file
  exists and the `weather` table holds `rows` (committed rows only).
  `sqlite3.connect` creates the file, and the `CREATE TABLE` is committed
  before ingestion starts, so every run of `setup_database` leaves the
  file existing.
* A JSON location entry is a `RawEntry`.  Each field is an `Option`:
  `none` models a broken access chain (a missing key, a missing `daily[0]`,
  or an unparseable `float(...)`) that raises an exception in Python;
  `some v` models a successful extraction of value `v`.
* Python floats are modelled as `ℚ`; none of the claims depends on
  IEEE-754 rounding.
* The AUTOINCREMENT `id` column is not modelled: no claim mentions it and
  it influences nothing downstream (`SELECT *` only feeds the columns used
  below).
* Calendar dates are modelled as `ℤ` day numbers, `today` being a
  parameter.
-/

namespace WeatherApp

/-- A committed row of the `weather` table (minus the unused `id`). -/
structure Row where
  location : String
  min_temp : ℚ
  max_temp : ℚ
  description : String
deriving DecidableEq, Repr

/-- One element of
`data['cwaopendata']['resources']['resource']['data']['agrWeatherForecasts']['weatherForecasts']['location']`.
`locationName` is the `'locationName'` access; `minT`/`maxT` are
`float(...['MinT'/'MaxT']['daily'][0]['temperature'])`; `wx` is
`...['Wx']['daily'][0]['weather']`.  `none` = the access raises. -/
structure RawEntry where
  locationName : Option String
  minT : Option ℚ
  maxT : Option ℚ
  wx : Option String
deriving DecidableEq, Repr

/-- Dictionary access: `some` succeeds, `none` raises (KeyError etc.),
modelled in `Except`. -/
def keyAccess {α : Type} (o : Option α) : Except Unit α :=
  match o with
  | some a => .ok a
  | none => .error ()

/-- Body of the ingestion loop for one entry, `app.py` lines 49–58 /
`process_data.py` lines 12–24: extract the four fields (raising on a
missing one), then insert only when
`location_name and min_temp is not None and max_temp is not None and description`
holds — `min_temp`/`max_temp` came from a successful `float(...)` so the
`is not None` tests are always true; the truthiness tests on the two
strings reject exactly the empty string.  `.ok (some r)` = row inserted,
`.ok none` = entry silently skipped, `.error ()` = exception raised. -/
def processEntry (e : RawEntry) : Except Unit (Option Row) := do
  let name ← keyAccess e.locationName
  let minT ← keyAccess e.minT
  let maxT ← keyAccess e.maxT
  let wx ← keyAccess e.wx
  if name ≠ "" ∧ wx ≠ "" then
    return some ⟨name, minT, maxT, wx⟩
  else
    return none

/-- The ingestion loop over all location entries (`process_data.py`
lines 11–24, identical to `app.py` lines 48–58).  The `conn.commit()`
sits after the loop, so an exception anywhere in the loop means no row of
this run is committed: the whole run yields `.error ()`.  On success the
committed rows are the inserted ones in source order. -/
def process_data : List RawEntry → Except Unit (List Row)
  | [] => .ok []
  | e :: es => do
    let r? ← processEntry e
    let rest ← process_data es
    match r? with
    | some r => return r :: rest
    | none => return rest

/-- The persistent store: `none` = `data.db` does not exist,
`some rows` = the file exists and the `weather` table holds `rows`. -/
abbrev Storage := Option (List Row)

/-- `setup_database` (`app.py` lines 22–70).  `source` is the JSON file:
`none` = `F-A0010-001.json` missing (`FileNotFoundError`), `some entries`
= its parsed location list.  If `data.db` exists the function does
nothing and returns `True`.  Otherwise `sqlite3.connect` creates the
file, the `CREATE TABLE` is committed, and ingestion runs: on success the
inserted rows are committed and `True` returned; on `FileNotFoundError`
or any exception in the loop the inserts are rolled back on close (the
commit is never reached), leaving an empty committed table, and `False`
is returned. -/
def setup_database (source : Option (List RawEntry)) (s : Storage) :
    Storage × Bool :=
  match s with
  | some _ => (s, true)
  | none =>
    match source with
    | none => (some [], false)
    | some entries =>
      match process_data entries with
      | .ok rows => (some rows, true)
      | .error _ => (some [], false)

/-- Iterate `setup_database` against the same source and evolving
storage, modelling repeated app start-ups. -/
def iterSetup (src : Option (List RawEntry)) : ℕ → Storage → Storage
  | 0, s => s
  | k + 1, s => iterSetup src k (setup_database src s).1

/-- Run a sequence of `setup_database` invocations (possibly with
different source documents) against evolving storage. -/
def applyAll (srcs : List (Option (List RawEntry))) (s : Storage) : Storage :=
  srcs.foldl (fun s src => (setup_database src s).1) s

/-- A well-formed entry: all four access chains succeed and the two
strings are non-empty, so the entry yields exactly one inserted row. -/
def wellFormed (e : RawEntry) : Prop :=
  e.locationName.getD "" ≠ "" ∧ e.minT.isSome ∧ e.maxT.isSome ∧
    e.wx.getD "" ≠ ""

instance : DecidablePred wellFormed := fun e => by
  unfold wellFormed; infer_instance

/-- All four access chains of the entry succeed (no exception); the
fields may still be empty strings. -/
def complete (e : RawEntry) : Prop :=
  e.locationName.isSome ∧ e.minT.isSome ∧ e.maxT.isSome ∧ e.wx.isSome

instance : DecidablePred complete := fun e => by
  unfold complete; infer_instance

/-- The row a (complete) entry would insert. -/
def mkRow (e : RawEntry) : Row :=
  { location := e.locationName.getD ""
    min_temp := e.minT.getD 0
    max_temp := e.maxT.getD 0
    description := e.wx.getD "" }

/-- The row an entry contributes, `none` when it is silently skipped by
the truthiness check (meaningful for complete entries). -/
def keptRow (e : RawEntry) : Option Row :=
  if e.locationName.getD "" ≠ "" ∧ e.wx.getD "" ≠ "" then some (mkRow e)
  else none

theorem processEntry_of_complete (e : RawEntry) (h : complete e) :
    processEntry e = .ok (keptRow e) := by
  obtain ⟨h1, h2, h3, h4⟩ := h
  obtain ⟨n, hn⟩ := Option.isSome_iff_exists.mp h1
  obtain ⟨m, hm⟩ := Option.isSome_iff_exists.mp h2
  obtain ⟨x, hx⟩ := Option.isSome_iff_exists.mp h3
  obtain ⟨w, hw⟩ := Option.isSome_iff_exists.mp h4
  simp only [processEntry, keyAccess, keptRow, mkRow, hn, hm, hx, hw]
  by_cases hc : n ≠ "" ∧ w ≠ ""
  · simp [hc, Bind.bind, Except.bind, pure, Except.pure]
  · simp [hc, Bind.bind, Except.bind, pure, Except.pure]

theorem wellFormed_complete (e : RawEntry) (h : wellFormed e) : complete e := by
  obtain ⟨h1, h2, h3, h4⟩ := h
  refine ⟨?_, h2, h3, ?_⟩
  · cases hn : e.locationName with
    | none => rw [hn] at h1; simp at h1
    | some n => simp
  · cases hw : e.wx with
    | none => rw [hw] at h4; simp at h4
    | some w => simp

theorem keptRow_of_wellFormed (e : RawEntry) (h : wellFormed e) :
    keptRow e = some (mkRow e) := by
  obtain ⟨h1, _, _, h4⟩ := h
  simp [keptRow, h1, h4]

theorem process_data_of_complete (entries : List RawEntry)
    (h : ∀ e ∈ entries, complete e) :
    process_data entries = .ok (entries.filterMap keptRow) := by
  induction entries with
  | nil => simp [process_data]
  | cons e es ih =>
    have he : complete e := h e (List.mem_cons_self e es)
    have hes : ∀ x ∈ es, complete x := fun x hx => h x (List.mem_cons_of_mem e hx)
    simp only [process_data, processEntry_of_complete e he, ih hes,
      List.filterMap_cons]
    cases hk : keptRow e with
    | none => simp [Bind.bind, Except.bind, hk, pure, Except.pure]
    | some r => simp [Bind.bind, Except.bind, hk, pure, Except.pure]

theorem process_data_of_wellFormed (entries : List RawEntry)
    (h : ∀ e ∈ entries, wellFormed e) :
    process_data entries = .ok (entries.map mkRow) := by
  rw [process_data_of_complete entries
    (fun e he => wellFormed_complete e (h e he))]
  congr 1
  induction entries with
  | nil => simp
  | cons e es ih =>
    have he := h e (List.mem_cons_self e es)
    rw [List.filterMap_cons, keptRow_of_wellFormed e he, List.map_cons,
      ih (fun x hx => h x (List.mem_cons_of_mem e hx))]

theorem processEntry_of_not_complete (e : RawEntry) (h : ¬ complete e) :
    processEntry e = .error () := by
  simp only [complete, not_and_or] at h
  simp only [processEntry, keyAccess]
  cases hn : e.locationName with
  | none => rfl
  | some n =>
    cases hm : e.minT with
    | none => rfl
    | some m =>
      cases hx : e.maxT with
      | none => rfl
      | some x =>
        cases hw : e.wx with
        | none => rfl
        | some w =>
          exfalso
          rcases h with h | h | h | h <;>
            simp [hn, hm, hx, hw] at h

theorem process_data_error (entries : List RawEntry)
    (h : ∃ e ∈ entries, ¬ complete e) :
    process_data entries = .error () := by
  induction entries with
  | nil => simp at h
  | cons e es ih =>
    by_cases he : complete e
    · obtain ⟨x, hx, hxc⟩ := h
      rcases List.mem_cons.mp hx with rfl | hx2
      · exact absurd he hxc
      · simp [process_data, processEntry_of_complete e he,
          ih ⟨x, hx2, hxc⟩, Bind.bind, Except.bind]
    · simp [process_data, processEntry_of_not_complete e he,
        Bind.bind, Except.bind]

theorem iterSetup_some (src : Option (List RawEntry)) (k : ℕ)
    (rows : List Row) : iterSetup src k (some rows) = some rows := by
  induction k with
  | zero => rfl
  | succ j ih => simp [iterSetup, setup_database, ih]

/-- C1: ingestion is idempotent through the existence check: starting
from no database file, any positive number of invocations of
`setup_database` against a source with N well-formed entries leaves
exactly N committed rows (never 2N), and any invocation against a store
that already holds at least one row is a no-op returning success. -/
theorem C1_ingestion_idempotent (entries : List RawEntry)
    (h : ∀ e ∈ entries, wellFormed e) (k : ℕ) (hk : 0 < k) :
    iterSetup (some entries) k none = some (entries.map mkRow) ∧
    (entries.map mkRow).length = entries.length ∧
    (∀ rows : List Row, 0 < rows.length →
      setup_database (some entries) (some rows) = (some rows, true)) := by
  refine ⟨?_, List.length_map _ _, fun rows _ => rfl⟩
  obtain ⟨j, rfl⟩ := Nat.exists_eq_add_of_lt hk
  have h1 : (setup_database (some entries) none).1 = some (entries.map mkRow) := by
    simp [setup_database, process_data_of_wellFormed entries h]
  rw [Nat.zero_add, iterSetup, h1, iterSetup_some]

/-- Concrete source used in the C1 witness: two well-formed entries. -/
def c1Entries : List RawEntry :=
  [⟨some "北部地區", some 12, some 18, some "晴"⟩,
   ⟨some "南部地區", some 16, some 24, some "雨"⟩]

/-- Witness for C1: two invocations against a 2-entry source leave
exactly 2 rows, and a store with one row is untouched. -/
theorem C1_witness :
    (∀ e ∈ c1Entries, wellFormed e) ∧ 0 < 2 ∧
    (iterSetup (some c1Entries) 2 none = some (c1Entries.map mkRow) ∧
     (c1Entries.map mkRow).length = c1Entries.length ∧
     (∀ rows : List Row, 0 < rows.length →
       setup_database (some c1Entries) (some rows) = (some rows, true))) :=
  ⟨by decide, by decide, C1_ingestion_idempotent c1Entries (by decide) 2 (by decide)⟩

/-- Concrete source refuting C2: three well-formed entries plus one whose
`Wx.daily[0].weather` access is missing (`wx = none`). -/
def c2Entries : List RawEntry :=
  [⟨some "北部地區", some 12, some 18, some "晴"⟩,
   ⟨some "中部地區", some 14, some 20, some "多雲"⟩,
   ⟨some "南部地區", some 16, some 24, some "雨"⟩,
   ⟨some "東部地區", some 15, some 21, none⟩]

/-- Counterexample to C2: against a source with 3 valid entries and 1
entry missing `description`, ingestion from a fresh store does NOT leave
3 rows — the missing key raises, the run aborts with no rows committed
(0 rows), and `setup_database` reports failure instead of skipping
silently. -/
theorem C2_counterexample :
    setup_database (some c2Entries) none = (some [], false) ∧
    ((setup_database (some c2Entries) none).1.getD []).length = 0 ∧
    (0 : ℕ) ≠ 3 := by
  refine ⟨?_, by decide, by decide⟩
  decide

/-- C2 (amended): when every entry's four access chains succeed, a record
is inserted iff `locationName` and `description` are non-empty, and an
entry with a present-but-empty `locationName` or `description` is skipped
silently with no error; but when any entry is missing one of the four
fields, the ingestion loop raises and the whole run errors (so 3 valid
entries plus 1 missing `description` commit 0 rows, not 3). -/
theorem C2_insert_iff_nonempty (entries : List RawEntry) :
    ((∀ e ∈ entries, complete e) →
      process_data entries = .ok (entries.filterMap keptRow)) ∧
    ((∃ e ∈ entries, ¬ complete e) →
      process_data entries = .error ()) :=
  ⟨process_data_of_complete entries, process_data_error entries⟩

/-- Concrete source for the C2 witness: one insertable entry, one entry
with a present-but-empty description (silently skipped). -/
def c2SkipEntries : List RawEntry :=
  [⟨some "北部地區", some 12, some 18, some "晴"⟩,
   ⟨some "中部地區", some 14, some 20, some ""⟩]

/-- Witness for the amended C2: on a complete source with one
empty-description entry, ingestion succeeds and keeps exactly the
non-empty entries; on `c2Entries` (one field missing) it errors. -/
theorem C2_witness :
    ((∀ e ∈ c2SkipEntries, complete e) ∧
      process_data c2SkipEntries = .ok (c2SkipEntries.filterMap keptRow)) ∧
    ((∃ e ∈ c2Entries, ¬ complete e) ∧
      process_data c2Entries = .error ()) :=
  ⟨⟨by decide, (C2_insert_iff_nonempty c2SkipEntries).1 (by decide)⟩,
   ⟨by decide, (C2_insert_iff_nonempty c2Entries).2 (by decide)⟩⟩

/-- An in-memory enriched record: a row of the final DataFrame in
`load_data` after the coordinate join and date synthesis. -/
structure Enriched where
  location : String
  min_temp : ℚ
  max_temp : ℚ
  description : String
  lat : ℚ
  lon : ℚ
  date : ℤ
deriving DecidableEq, Repr

/-- Forget the enrichment columns, recovering the stored row. -/
def stripE (e : Enriched) : Row :=
  ⟨e.location, e.min_temp, e.max_temp, e.description⟩

/-- The `mock_coords` dictionary of `load_data` (`app.py` lines 84–88):
a fixed location → (lat, lon) table. -/
def mock_coords (l : String) : Option (ℚ × ℚ) :=
  if l = "北部地區" then some (25033 / 1000, 121565 / 1000)
  else if l = "中部地區" then some (24148 / 1000, 120674 / 1000)
  else if l = "南部地區" then some (22999 / 1000, 120213 / 1000)
  else if l = "東北部地區" then some (24746 / 1000, 121745 / 1000)
  else if l = "東部地區" then some (23987 / 1000, 121604 / 1000)
  else if l = "東南部地區" then some (2275 / 100, 12115 / 100)
  else none

/-- `list(mock_coords.keys())` in dictionary insertion order. -/
def mock_coords_keys : List String :=
  ["北部地區", "中部地區", "南部地區", "東北部地區", "東部地區", "東南部地區"]

/-- Build the enriched record at dense position `i` (after
`reset_index(drop=True)`): lat/lon from the joined coordinates and
`date = today + timedelta(days=i % 3)`. -/
def mkEnriched (today : ℤ) (i : ℕ) (r : Row) (c : ℚ × ℚ) : Enriched :=
  { location := r.location
    min_temp := r.min_temp
    max_temp := r.max_temp
    description := r.description
    lat := c.1
    lon := c.2
    date := today + ((i % 3 : ℕ) : ℤ) }

/-- The rows surviving `df['coords'] = df['location'].map(mock_coords);
df = df.dropna(subset=['coords'])`, each paired with its coordinates. -/
def keptWithCoords (rows : List Row) : List (Row × ℚ × ℚ) :=
  rows.filterMap fun r => (mock_coords r.location).map fun c => (r, c)

/-- `load_data` (`app.py` lines 74–113) on the success path, reading
`rows` from the `weather` table with `today = datetime.now().date()`
fixed.  Returns `(none, [])` when the table is empty (the `df.empty`
branch, the EmptyStore signal); `(some [], mock_coords_keys)` when every
row is dropped by the coordinate join; otherwise the enriched records in
order with synthesized dates, paired with
`sorted(list(df['location'].unique()))`. -/
def load_data (today : ℤ) (rows : List Row) :
    Option (List Enriched) × List String :=
  if rows = [] then (none, [])
  else
    let kept := keptWithCoords rows
    if kept = [] then (some [], mock_coords_keys)
    else
      let enriched := kept.enum.map fun p => mkEnriched today p.1 p.2.1 p.2.2
      (some enriched,
        List.insertionSort (· ≤ ·) (enriched.map fun e => e.location).dedup)

theorem map_fst_keptWithCoords (rows : List Row) :
    (keptWithCoords rows).map Prod.fst =
      rows.filter fun r => (mock_coords r.location).isSome := by
  induction rows with
  | nil => rfl
  | cons r rs ih =>
    simp only [keptWithCoords, List.filterMap_cons, List.filter_cons] at *
    cases hc : mock_coords r.location with
    | none => simpa [hc] using ih
    | some c => simpa [hc] using ih

theorem keptWithCoords_eq_nil_iff (rows : List Row) :
    keptWithCoords rows = [] ↔
      (rows.filter fun r => (mock_coords r.location).isSome) = [] := by
  constructor
  · intro h
    rw [← map_fst_keptWithCoords, h]
    rfl
  · intro h
    have := congrArg List.length (map_fst_keptWithCoords rows)
    rw [h] at this
    simpa using this

theorem mem_keptWithCoords (rows : List Row) :
    ∀ (r : Row) (c : ℚ × ℚ),
      (r, c) ∈ keptWithCoords rows → mock_coords r.location = some c := by
  induction rows with
  | nil => intro r c h; simp [keptWithCoords] at h
  | cons a rs ih =>
    intro r c h
    simp only [keptWithCoords, List.filterMap_cons] at h
    cases hc : mock_coords a.location with
    | none =>
      simp only [hc, Option.map_none'] at h
      exact ih r c h
    | some c0 =>
      simp only [hc, Option.map_some'] at h
      rcases List.mem_cons.mp h with he | h2
      · rw [Prod.mk.injEq] at he
        obtain ⟨rfl, rfl⟩ := he
        exact hc
      · exact ih r c h2

theorem snd_mem_of_mem_enumFrom {α : Type} (l : List α) :
    ∀ (n : ℕ) (p : ℕ × α), p ∈ l.enumFrom n → p.2 ∈ l := by
  induction l with
  | nil => intro n p h; simp [List.enumFrom] at h
  | cons a l ih =>
    intro n p h
    rw [List.enumFrom] at h
    rcases List.mem_cons.mp h with rfl | h2
    · exact List.mem_cons_self a l
    · exact List.mem_cons_of_mem a (ih (n + 1) p h2)

theorem enumFrom_map_snd_comp {α β : Type} (f : α → β) :
    ∀ (n : ℕ) (l : List α), (l.enumFrom n).map (fun p => f p.2) = l.map f := by
  intro n l
  induction l generalizing n with
  | nil => rfl
  | cons a l ih => simp [List.enumFrom, ih]

/-- C3: whenever `load_data` returns an enriched list, that list consists
of exactly the stored rows whose location is a key of the coordinate
table (in order), and every enriched record carries the (non-null)
lat/lon pair the table assigns to its location; rows with no table entry
are excluded. -/
theorem C3_enrichment (today : ℤ) (rows : List Row) (l : List Enriched)
    (h : (load_data today rows).1 = some l) :
    l.map stripE = rows.filter (fun r => (mock_coords r.location).isSome) ∧
    (∀ e ∈ l, mock_coords e.location = some (e.lat, e.lon)) := by
  by_cases h0 : rows = []
  · rw [h0] at h
    simp [load_data] at h
  · by_cases hk : keptWithCoords rows = []
    · have hld : load_data today rows = (some [], mock_coords_keys) := by
        simp [load_data, h0, hk]
      rw [hld] at h
      obtain rfl : l = [] := (Option.some.injEq _ _ ▸ h.symm)
      refine ⟨?_, by simp⟩
      rw [((keptWithCoords_eq_nil_iff rows).mp hk)]
      rfl
    · have hl : l = (keptWithCoords rows).enum.map
          fun p => mkEnriched today p.1 p.2.1 p.2.2 := by
        simp only [load_data, if_neg h0, if_neg hk] at h
        exact (Option.some.injEq _ _ ▸ h.symm)
      constructor
      · rw [hl, List.map_map]
        have hcomp : (stripE ∘ fun p : ℕ × (Row × ℚ × ℚ) =>
            mkEnriched today p.1 p.2.1 p.2.2) = fun p => p.2.1 := rfl
        rw [hcomp, ← map_fst_keptWithCoords rows, List.enum]
        exact enumFrom_map_snd_comp Prod.fst 0 (keptWithCoords rows)
      · intro e he
        rw [hl] at he
        obtain ⟨p, hp, rfl⟩ := List.mem_map.mp he
        have h2 : p.2 ∈ keptWithCoords rows := by
          refine snd_mem_of_mem_enumFrom _ 0 p ?_
          rw [← List.enum]
          exact hp
        have h3 := mem_keptWithCoords rows p.2.1 p.2.2 (by rwa [Prod.mk.eta])
        simpa [mkEnriched] using h3

/-- Concrete stored rows for the C3 witness: one location in the
coordinate table, one unknown location. -/
def c3Rows : List Row :=
  [⟨"北部地區", 10, 20, "晴"⟩, ⟨"火星", 1, 2, "晴"⟩]

/-- The enriched list `load_data` produces from `c3Rows`. -/
def c3Enr : List Enriched := ((load_data 0 c3Rows).1).getD []

/-- Witness for C3: on `c3Rows` the unknown location is dropped and the
surviving record is exactly the known row, with its table coordinates. -/
theorem C3_witness :
    ((load_data 0 c3Rows).1 = some c3Enr) ∧
    c3Enr.map stripE =
      c3Rows.filter (fun r => (mock_coords r.location).isSome) ∧
    mock_coords "北部地區" = some (25033 / 1000, 121565 / 1000) :=
  ⟨rfl, (C3_enrichment 0 c3Rows c3Enr rfl).1, rfl⟩

/-- C4: given a fixed `today`, the record at dense 0-based position `i`
of the enriched output is dated `today + (i % 3)` days. -/
theorem C4_dates (today : ℤ) (rows : List Row) (l : List Enriched)
    (h : (load_data today rows).1 = some l) (i : ℕ) (hi : i < l.length) :
    (l.get ⟨i, hi⟩).date = today + ((i % 3 : ℕ) : ℤ) := by
  by_cases h0 : rows = []
  · rw [h0] at h
    simp [load_data] at h
  · by_cases hk : keptWithCoords rows = []
    · have hld : load_data today rows = (some [], mock_coords_keys) := by
        simp [load_data, h0, hk]
      rw [hld] at h
      obtain rfl : l = [] := (Option.some.injEq _ _ ▸ h.symm)
      simp at hi
    · have hl : l = (keptWithCoords rows).enum.map
          fun p => mkEnriched today p.1 p.2.1 p.2.2 := by
        simp only [load_data, if_neg h0, if_neg hk] at h
        exact (Option.some.injEq _ _ ▸ h.symm)
      subst hl
      rw [List.get_eq_getElem]
      simp [List.getElem_map, List.getElem_enum, mkEnriched]

/-- Concrete stored rows for the C4 witness: five rows, all with known
coordinates, so positions 0–4 survive. -/
def c4Rows : List Row :=
  [⟨"北部地區", 10, 20, "晴"⟩, ⟨"中部地區", 11, 21, "晴"⟩,
   ⟨"南部地區", 12, 22, "晴"⟩, ⟨"東部地區", 13, 23, "晴"⟩,
   ⟨"東南部地區", 14, 24, "晴"⟩]

/-- The enriched list `load_data` produces from `c4Rows`. -/
def c4Enr : List Enriched := ((load_data 0 c4Rows).1).getD []

/-- Witness for C4 with `today = 0`: positions 0,1,2,3,4 get dates
0,1,2,0,1, the 3-day repeating cycle. -/
theorem C4_witness :
    ((load_data 0 c4Rows).1 = some c4Enr) ∧
    (c4Enr.get ⟨0, by decide⟩).date = 0 ∧
    (c4Enr.get ⟨1, by decide⟩).date = 1 ∧
    (c4Enr.get ⟨2, by decide⟩).date = 2 ∧
    (c4Enr.get ⟨3, by decide⟩).date = 0 ∧
    (c4Enr.get ⟨4, by decide⟩).date = 1 :=
  ⟨rfl,
   by simpa using C4_dates 0 c4Rows c4Enr rfl 0 (by decide),
   by simpa using C4_dates 0 c4Rows c4Enr rfl 1 (by decide),
   by simpa using C4_dates 0 c4Rows c4Enr rfl 2 (by decide),
   by simpa using C4_dates 0 c4Rows c4Enr rfl 3 (by decide),
   by simpa using C4_dates 0 c4Rows c4Enr rfl 4 (by decide)⟩

/-- The date/location filter (`app.py` lines 162–165): when the selector
is `"全部地區"` keep every record in the inclusive date range, otherwise
additionally require an exact location match. -/
def filtered_df (df : List Enriched) (start_date end_date : ℤ)
    (selected_location : String) : List Enriched :=
  if selected_location = "全部地區" then
    df.filter fun r => decide (start_date ≤ r.date) && decide (r.date ≤ end_date)
  else
    df.filter fun r => decide (r.location = selected_location) &&
      decide (start_date ≤ r.date) && decide (r.date ≤ end_date)

/-- C5: the filter keeps exactly the records with
`start_date ≤ date ≤ end_date` (both bounds inclusive) whose location
matches the selector, the selector `"全部地區"` matching everything. -/
theorem C5_filter (df : List Enriched) (sd ed : ℤ) (sel : String)
    (r : Enriched) :
    r ∈ filtered_df df sd ed sel ↔
      r ∈ df ∧ sd ≤ r.date ∧ r.date ≤ ed ∧
        (sel = "全部地區" ∨ r.location = sel) := by
  by_cases hs : sel = "全部地區"
  · simp [filtered_df, hs, List.mem_filter, and_assoc]
  · simp only [filtered_df, if_neg hs, List.mem_filter, Bool.and_eq_true,
      decide_eq_true_eq]
    constructor
    · rintro ⟨hm, ⟨hloc, h1⟩, h2⟩
      exact ⟨hm, h1, h2, Or.inr hloc⟩
    · rintro ⟨hm, h1, h2, hloc | hloc⟩
      · exact absurd hloc hs
      · exact ⟨hm, ⟨hloc, h1⟩, h2⟩

/-- `avg_max_temp = filtered_df['max_temp'].mean()`. -/
def avg_max_temp (l : List Enriched) : ℚ :=
  (l.map fun r => r.max_temp).sum / l.length

/-- `avg_min_temp = filtered_df['min_temp'].mean()`. -/
def avg_min_temp (l : List Enriched) : ℚ :=
  (l.map fun r => r.min_temp).sum / l.length

/-- `gdd_base = 10`, the assumed growth base temperature. -/
def gdd_base : ℚ := 10

/-- `gdd` (`app.py` lines 213–215):
`max(0, (avg_max+avg_min)/2 - gdd_base) * len(filtered_df.date.unique())`. -/
def gdd (l : List Enriched) : ℚ :=
  max 0 ((avg_max_temp l + avg_min_temp l) / 2 - gdd_base) *
    ((l.map fun r => r.date).dedup.length : ℚ)

/-- C6: on a non-empty filtered sequence, growing degree days equal
`max(0, (avg_max + avg_min)/2 - 10)` times the number of DISTINCT date
values (a `Finset` cardinality, not a span length); the result is never
negative, and `avg_max = 5, avg_min = 3` forces 0 whatever the day
count. -/
theorem C6_gdd (l : List Enriched) (h : l ≠ []) :
    gdd l = max 0 ((avg_max_temp l + avg_min_temp l) / 2 - 10) *
      ((l.map fun r => r.date).toFinset.card : ℚ) ∧
    0 ≤ gdd l ∧
    (avg_max_temp l = 5 → avg_min_temp l = 3 → gdd l = 0) := by
  refine ⟨?_, ?_, ?_⟩
  · rw [gdd, gdd_base, List.card_toFinset]
  · exact mul_nonneg (le_max_left 0 _) (Nat.cast_nonneg _)
  · intro h5 h3
    rw [gdd, h5, h3, gdd_base]
    norm_num

/-- Concrete filtered sequence for the C6 witness: one record with
`max_temp = 5`, `min_temp = 3`. -/
def c6L : List Enriched := [⟨"北部地區", 3, 5, "晴", 0, 0, 0⟩]

/-- Witness for C6: averages 5 and 3 give zero growing degree days. -/
theorem C6_witness :
    c6L ≠ [] ∧ avg_max_temp c6L = 5 ∧ avg_min_temp c6L = 3 ∧
    gdd c6L = 0 ∧ 0 ≤ gdd c6L :=
  ⟨by simp [c6L],
   by simp [avg_max_temp, c6L],
   by simp [avg_min_temp, c6L],
   (C6_gdd c6L (by simp [c6L])).2.2 (by simp [avg_max_temp, c6L])
     (by simp [avg_min_temp, c6L]),
   (C6_gdd c6L (by simp [c6L])).2.1⟩

/-- C7: `load_data` yields the empty-store signal (`None` in place of a
DataFrame) exactly when the `weather` table has zero rows; a non-empty
table always yields a real (possibly empty) record list, so the two
situations are distinguishable. -/
theorem C7_empty_store (today : ℤ) (rows : List Row) :
    (load_data today rows).1 = none ↔ rows = [] := by
  by_cases h0 : rows = []
  · simp [load_data, h0]
  · by_cases hk : keptWithCoords rows = [] <;> simp [load_data, h0, hk]

/-- C8: when the table is non-empty but the coordinate join drops every
row, `load_data` returns the empty record list paired with the FULL key
list of the coordinate table, not the (empty) list of locations actually
present. -/
theorem C8_all_dropped (today : ℤ) (rows : List Row) (h1 : rows ≠ [])
    (h2 : ∀ r ∈ rows, mock_coords r.location = none) :
    load_data today rows = (some [], mock_coords_keys) := by
  have hgen : ∀ rs : List Row, (∀ r ∈ rs, mock_coords r.location = none) →
      keptWithCoords rs = [] := by
    intro rs
    induction rs with
    | nil => intro _; rfl
    | cons r rs ih =>
      intro h
      rw [keptWithCoords, List.filterMap_cons, h r (List.mem_cons_self r rs)]
      exact ih (fun x hx => h x (List.mem_cons_of_mem r hx))
  simp [load_data, h1, hgen rows h2]

/-- Concrete rows for the C8 witness: a single row whose location is not
a coordinate-table key. -/
def c8Rows : List Row := [⟨"火星", 1, 2, "晴"⟩]

/-- Witness for C8: the unknown-location row is dropped and the full
nominal key list comes back. -/
theorem C8_witness :
    c8Rows ≠ [] ∧ (∀ r ∈ c8Rows, mock_coords r.location = none) ∧
    load_data 0 c8Rows = (some [], mock_coords_keys) :=
  ⟨by simp [c8Rows], by decide,
   C8_all_dropped 0 c8Rows (by simp [c8Rows]) (by decide)⟩

/-- C9: when the enriched output is non-empty, the location list
returned with it is sorted, duplicate-free, and holds exactly the
locations present among the enriched records. -/
theorem C9_locations (today : ℤ) (rows : List Row) (l : List Enriched)
    (locs : List String) (h : load_data today rows = (some l, locs))
    (hne : l ≠ []) :
    locs.Sorted (· ≤ ·) ∧ locs.Nodup ∧
      (∀ x, x ∈ locs ↔ x ∈ l.map fun e => e.location) := by
  by_cases h0 : rows = []
  · rw [h0] at h
    simp [load_data, Prod.ext_iff] at h
  · by_cases hk : keptWithCoords rows = []
    · simp only [load_data, if_neg h0, if_pos hk, Prod.mk.injEq,
        Option.some.injEq] at h
      exact absurd h.1.symm hne
    · simp only [load_data, if_neg h0, if_neg hk, Prod.mk.injEq,
        Option.some.injEq] at h
      obtain ⟨hl, hlocs⟩ := h
      subst hlocs
      refine ⟨List.sorted_insertionSort _ _, ?_, ?_⟩
      · exact ((List.perm_insertionSort _ _).nodup_iff).mpr
          (List.nodup_dedup _)
      · intro x
        rw [List.mem_insertionSort, List.mem_dedup, hl]

/-- Concrete rows for the C9 witness: two known locations stored in
reverse lexicographic order. -/
def c9Rows : List Row :=
  [⟨"南部地區", 16, 24, "雨"⟩, ⟨"北部地區", 12, 18, "晴"⟩]

/-- The enriched list `load_data` produces from `c9Rows`. -/
def c9Enr : List Enriched := ((load_data 0 c9Rows).1).getD []

/-- The location list `load_data` returns with `c9Enr`. -/
def c9Locs : List String := (load_data 0 c9Rows).2

/-- Witness for C9 on the two-location store. -/
theorem C9_witness :
    (load_data 0 c9Rows = (some c9Enr, c9Locs) ∧ c9Enr ≠ []) ∧
    c9Locs.Sorted (· ≤ ·) ∧ c9Locs.Nodup ∧
    ("南部地區" ∈ c9Locs ↔ "南部地區" ∈ c9Enr.map fun e => e.location) :=
  ⟨⟨rfl, by simp [c9Enr, c9Rows, load_data, keptWithCoords, mock_coords]⟩,
   (C9_locations 0 c9Rows c9Enr c9Locs rfl
     (by simp [c9Enr, c9Rows, load_data, keptWithCoords, mock_coords])).1,
   (C9_locations 0 c9Rows c9Enr c9Locs rfl
     (by simp [c9Enr, c9Rows, load_data, keptWithCoords, mock_coords])).2.1,
   (C9_locations 0 c9Rows c9Enr c9Locs rfl
     (by simp [c9Enr, c9Rows, load_data, keptWithCoords, mock_coords])).2.2
     "南部地區"⟩

/-- The JSON ingestion of this source aborts: the file is missing, or an
entry raises inside the loop so no insert of the run is committed. -/
def ingestAborts (src : Option (List RawEntry)) : Prop :=
  match src with
  | none => True
  | some es => process_data es = .error ()

/-- C10: a failed first ingestion (missing source file or an exception
in the loop) still leaves the database file with an empty committed
`weather` table; every later `setup_database` call sees the file, does
nothing and returns success, so the store stays empty for the file's
lifetime no matter what sources are offered afterwards. -/
theorem C10_poisoned_store (src : Option (List RawEntry))
    (h : ingestAborts src) :
    setup_database src none = (some [], false) ∧
    (∀ (src2 : Option (List RawEntry)) (rows : List Row),
      setup_database src2 (some rows) = (some rows, true)) ∧
    (∀ srcs : List (Option (List RawEntry)),
      applyAll srcs (some []) = some []) := by
  refine ⟨?_, fun src2 rows => rfl, ?_⟩
  · cases src with
    | none => rfl
    | some es =>
      simp only [ingestAborts] at h
      simp [setup_database, h]
  · intro srcs
    induction srcs with
    | nil => rfl
    | cons s ss ih =>
      simpa [applyAll, setup_database] using ih

/-- Witness for C10: the source file is missing on first run; the store
is created empty, later runs (with any source) report success and leave
it empty. -/
theorem C10_witness :
    ingestAborts (none : Option (List RawEntry)) ∧
    setup_database none none = (some [], false) ∧
    setup_database (some []) (some []) = (some [], true) ∧
    applyAll [some [], none] (some []) = some [] :=
  ⟨trivial, (C10_poisoned_store none trivial).1,
   (C10_poisoned_store none trivial).2.1 (some []) [],
   (C10_poisoned_store none trivial).2.2 [some [], none]⟩

end WeatherApp
